import Mathlib

/-!
Verification of the results-reconciliation batch job in `update_results.py`
(class `ResultsUpdaterSportAPI`).

The embedding models the program at the granularity the claims need:

* Team names are strings; Python `str.strip` / `str.lower` are embedded as
  character-list operations (`pyStrip`, `pyLower`) so that every normalization
  computes inside the kernel.
* Timestamps and dates are integers.  The local rows carry their calendar day
  directly (only `starts.date()` is ever inspected); the feed records carry a
  unix timestamp, and `dayOf` embeds `datetime.fromtimestamp(t).date()` as a
  day index (floor division by 86400, the UTC reading of the conversion).
* JSON access `d.get(k, default)` is embedded with `Option`; a field whose
  value can itself be JSON null is `Option (Option _)` (`none` = key absent,
  `some none` = null).  An expression that raises is embedded in `Except Unit`.
* The results store is a `Store`: its `rows` are the persisted result rows,
  `failing` is the set of event ids whose insert statement raises (modelling a
  transient store error), and `attempts` is a ghost log of every executed
  insert statement (the code logs each attempt), used to state claims about
  insert attempts.
* The database schema is not part of the repository.  The uniqueness behaviour
  of `INSERT ... ON CONFLICT DO NOTHING` is therefore modelled from the spec
  (see `insertAttempt`).
-/

deriving instance DecidableEq for Except

/-- Embeds Python `s.strip()`: drop whitespace from both ends. -/
def pyStrip (s : String) : String :=
  String.mk (((s.data.dropWhile Char.isWhitespace).reverse.dropWhile
    Char.isWhitespace).reverse)

/-- Embeds Python `s.lower()`: lowercase every character. -/
def pyLower (s : String) : String := String.mk (s.data.map Char.toLower)

/-- The completion status string compared against at line 86. -/
def finishedStr : String := "finished"

/-- Embeds Python `str(x)` for `x` an optional integer: `str(None)` is the
string `None`, otherwise the decimal rendering.  Used for the tournament-id
comparison at line 90. -/
def pyStr : Option Int → String
  | none => "None"
  | some n => toString n

/-- Embeds `datetime.fromtimestamp(t).date()` as a day index: floor division
of the unix timestamp by 86400 (the UTC reading of the conversion; only the
calendar day of the converted value is ever compared or stored). -/
def dayOf (t : Int) : Int := Int.fdiv t 86400

/-- A normalized local candidate event as produced by `fetch_pinnacle_events`
(lines 48-55): id, normalized team names, and the calendar day of `starts`. -/
structure PEvent where
  event_id : Nat
  home_team : String
  away_team : String
  starts_day : Int
deriving DecidableEq

/-- A raw row of the `odds1x2` query (line 42-47): team names may be SQL NULL. -/
structure RawRow where
  event_id : Nat
  home_team : Option String
  away_team : Option String
  starts_day : Int
deriving DecidableEq

/-- An external feed record, with exactly the fields the code reads.  Nested
access through absent keys yields `none`; a team-name value that is present
but null is `some none` (lines 85-102, 115-116). -/
structure ApiEvent where
  status_type : Option String
  tournament_id : Option Int
  homeScore : Option Int
  awayScore : Option Int
  homeTeam_name : Option (Option String)
  awayTeam_name : Option (Option String)
  startTimestamp : Option Int
deriving DecidableEq

/-- A row of the `results` table as built by the insert at lines 113-120:
the local event id, the RAW (non-normalized) feed names, the start day and
the two scores. -/
structure ResultRow where
  event_id : Nat
  home_team : Option String
  away_team : Option String
  starts_day : Int
  home_score : Int
  away_score : Int
deriving DecidableEq

/-- The state of the results store.  `rows` are the persisted rows.
`failing` models transient insert errors: an insert statement for an event id
in this set raises.  `attempts` is a ghost log of every executed insert
statement, recording its event id. -/
structure Store where
  rows : List ResultRow
  failing : List Nat
  attempts : List Nat
deriving DecidableEq

/-- The constructor configuration (lines 18-24): tournament id and the
inclusive date range, dates as day indices. -/
structure Config where
  tournament_id : Int
  start_date : Int
  end_date : Int
deriving DecidableEq

/-- The external world of one run: whether the database connection succeeds
(line 29), the outcome of the candidate query were it executed (line 42), and
the outcome of the feed request for each day (line 68). -/
structure Env where
  db_reachable : Bool
  query_result : Except Unit (List RawRow)
  feed : Int → Except Unit (List ApiEvent)

/-- The observable outcome of a whole run of `update`: `exited 1` for the
`sys.exit(1)` in `connect_db`, `crashed` for an uncaught exception, and
`completed` with the final store state otherwise. -/
inductive RunOutcome where
  | exited (code : Nat)
  | crashed
  | completed (st : Store)
deriving DecidableEq

/-- Embeds the local-side normalization at lines 51-52:
`r.strip().lower() if r else ""`.  Python falsiness on an optional string
means SQL NULL or the empty string. -/
def normPinnacle : Option String → String
  | none => ""
  | some s => if s = "" then "" else pyLower (pyStrip s)

/-- Embeds the feed-side normalization at lines 100-101:
`api_event.get("homeTeam", {}).get("name", "").strip().lower()`.  An absent
key falls back to the empty string before strip and lower; a PRESENT but null
name makes `.strip()` raise `AttributeError`, embedded as `Except.error`. -/
def normApi : Option (Option String) → Except Unit String
  | none => .ok (pyLower (pyStrip ""))
  | some none => .error ()
  | some (some s) => .ok (pyLower (pyStrip s))

/-- The raw team name inserted at lines 115-116:
`api_event.get("homeTeam", {}).get("name")`, with no default. -/
def rawName : Option (Option String) → Option String
  | none => none
  | some o => o

/-- The tolerance constant from the match condition at line 110. -/
def TOLERANCE_DAYS : Nat := 14

/-- The per-candidate match condition at lines 107-110: normalized name
equality on both teams and calendar-day distance at most `TOLERANCE_DAYS`. -/
def matchPred (api_home api_away : String) (api_day : Int) (p : PEvent) : Bool :=
  api_home == p.home_team && api_away == p.away_team &&
    decide ((api_day - p.starts_day).natAbs ≤ TOLERANCE_DAYS)

/-- The matcher realized by the inner loop at lines 104-126: scan the
candidates in order and take the first one satisfying `matchPred`. -/
def findMatch (api_home api_away : String) (api_day : Int)
    (candidates : List PEvent) : Option PEvent :=
  candidates.find? (matchPred api_home api_away api_day)

namespace ResultsUpdaterSportAPI

/-- The fixture-eligibility predicate assembled from the three skip checks at
lines 85-99: status type is `finished`, stringified tournament id equals the
stringified configured id, and both regulation-time scores are present. -/
def is_eligible (cfg : Config) (e : ApiEvent) : Bool :=
  e.status_type == some finishedStr &&
  pyStr e.tournament_id == toString cfg.tournament_id &&
  e.homeScore.isSome && e.awayScore.isSome

/-- The result tuple bound by the insert statement at lines 113-120. -/
def mkRow (p : PEvent) (e : ApiEvent) (d hs aws : Int) : ResultRow :=
  ⟨p.event_id, rawName e.homeTeam_name, rawName e.awayTeam_name, d, hs, aws⟩

/-- One execution of the insert statement (lines 76-80, 113-120), against the
store.  An event id in `failing` makes the statement raise (second component
`false`: the `except` at line 123 catches it and only logs).  Modelled from
the spec: the schema of `results` is not in the repository, and the spec
states that at most one result row may exist per identifying key, duplicate
insert attempts being no-ops, not errors; the identifying key is taken to be
the local event id, so `ON CONFLICT DO NOTHING` succeeds without adding a row
when the key is already present.  Every executed statement is recorded in the
ghost `attempts` log. -/
def insertAttempt (st : Store) (r : ResultRow) : Store × Bool :=
  let stA : Store := { st with attempts := st.attempts ++ [r.event_id] }
  if r.event_id ∈ st.failing then (stA, false)
  else if st.rows.any (fun q => q.event_id == r.event_id) then (stA, true)
  else ({ stA with rows := st.rows ++ [r] }, true)

/-- The body of the `for api_event in sportapi_events` loop at lines 84-129
for a single feed record: the three skip checks, then name normalization and
timestamp conversion (which can raise), then the first-candidate match and
the guarded insert.  Returns the store and the updated `count` and `skipped`
counters, or an uncaught exception. -/
def processEvent (cfg : Config) (pins : List PEvent) (e : ApiEvent)
    (st : Store) (count skipped : Nat) : Except Unit (Store × Nat × Nat) :=
  if e.status_type = some finishedStr then
    if pyStr e.tournament_id = toString cfg.tournament_id then
      match e.homeScore, e.awayScore with
      | some hs, some aws =>
        match normApi e.homeTeam_name, normApi e.awayTeam_name with
        | .ok ah, .ok aw =>
          match e.startTimestamp with
          | some t =>
            match findMatch ah aw (dayOf t) pins with
            | some p =>
              match insertAttempt st (mkRow p e (dayOf t) hs aws) with
              | (st2, true) => .ok (st2, count + 1, skipped)
              | (st2, false) => .ok (st2, count, skipped)
            | none => .ok (st, count, skipped + 1)
          | none => .error ()
        | .error u, _ => .error u
        | .ok _, .error u => .error u
      | none, _ => .ok (st, count, skipped + 1)
      | some _, none => .ok (st, count, skipped + 1)
    else .ok (st, count, skipped + 1)
  else .ok (st, count, skipped + 1)

/-- The full loop of `match_and_insert_results` over a batch, threading the
store and both counters. -/
def insertLoop (cfg : Config) (pins : List PEvent) :
    List ApiEvent → Store → Nat → Nat → Except Unit (Store × Nat × Nat)
  | [], st, c, s => .ok (st, c, s)
  | e :: rest, st, c, s =>
    match processEvent cfg pins e st c s with
    | .error u => .error u
    | .ok (st2, c2, s2) => insertLoop cfg pins rest st2 c2 s2

/-- Embeds `match_and_insert_results` (lines 75-134): both counters start at
zero; the final commit only logs on error and is a no-op in the model. -/
def match_and_insert_results (cfg : Config) (pins : List PEvent)
    (apis : List ApiEvent) (st : Store) : Except Unit (Store × Nat × Nat) :=
  insertLoop cfg pins apis st 0 0

/-- Embeds `fetch_pinnacle_events` (lines 38-58): the whole body is inside
`try`, and ANY exception is caught, logged, and turned into the empty list;
otherwise each row is normalized.  In this source the body always raises
before the query executes, because line 41 references `timezone`, a name
that the imports at line 7 leave unbound. -/
def fetch_pinnacle_events (q : Except Unit (List RawRow)) : List PEvent :=
  match q with
  | .error _ => []
  | .ok rows =>
    rows.map (fun r =>
      ⟨r.event_id, normPinnacle r.home_team, normPinnacle r.away_team,
        r.starts_day⟩)

/-- The candidate list every actual run of this source works with: the
`NameError` on the unbound `timezone` at line 41 forces the `except` branch. -/
def fetch_pinnacle_events_actual : List PEvent := fetch_pinnacle_events (.error ())

/-- Embeds `fetch_sportapi_events_for_date` (lines 60-73): a request failure
or bad payload is caught inside the function and yields the empty list. -/
def fetch_sportapi_events_for_date (r : Except Unit (List ApiEvent)) :
    List ApiEvent :=
  match r with
  | .error _ => []
  | .ok events => events

/-- The day sequence traversed by the `while cur_date <= self.end_date` loop
at lines 140-146: the loop variable starts at `start_date`, the body runs
while it is at most `end_date`, and it increases by one day per iteration, so
the loop runs exactly `toNat (end_date + 1 - start_date)` times. -/
def dateRangeAux : Nat → Int → List Int
  | 0, _ => []
  | n + 1, s => s :: dateRangeAux n (s + 1)

/-- The list of days visited by the date loop of `update`, from `start_date`
to `end_date` inclusive. -/
def dateRange (s e : Int) : List Int := dateRangeAux (e + 1 - s).toNat s

/-- The body of the date loop (lines 141-146), iterated over the visited
days: fetch the feed for the day, run `match_and_insert_results`, and
continue; an exception raised by the batch propagates (there is no handler in
`update`). -/
def updateLoop (cfg : Config) (env : Env) (pins : List PEvent) :
    List Int → Store → Except Unit Store
  | [], st => .ok st
  | d :: ds, st =>
    match match_and_insert_results cfg pins
        (fetch_sportapi_events_for_date (env.feed d)) st with
    | .error u => .error u
    | .ok (st2, _, _) => updateLoop cfg env pins ds st2

/-- Embeds `update` (lines 136-148): connect (exit code 1 if the database is
unreachable), read the candidates once, then run the date loop; an exception
escaping the loop is uncaught (the `finally` only closes the connection), so
the run crashes. -/
def update (cfg : Config) (env : Env) (st : Store) : RunOutcome :=
  if env.db_reachable then
    match updateLoop cfg env (fetch_pinnacle_events env.query_result)
        (dateRange cfg.start_date cfg.end_date) st with
    | .ok st2 => .completed st2
    | .error _ => .crashed
  else .exited 1

end ResultsUpdaterSportAPI

open ResultsUpdaterSportAPI

/-! Concrete data used by witnesses and counterexamples. -/

/-- Raw feed spelling of the first home team. -/
def arsenalRaw : String := "Arsenal"

/-- Raw feed spelling of the first away team. -/
def chelseaRaw : String := "Chelsea"

/-- Raw feed spelling of the second home team. -/
def liverpoolRaw : String := "Liverpool"

/-- Raw feed spelling of the second away team. -/
def evertonRaw : String := "Everton"

/-- A configuration with the tournament id 384 hardcoded at line 154 and a
one-day range. -/
def cfgMain : Config := ⟨384, 0, 0⟩

/-- The same configuration over a two-day range. -/
def cfgTwoDays : Config := ⟨384, 0, 1⟩

/-- A normalized local candidate for the first fixture. -/
def pArs : PEvent := ⟨1, "arsenal", "chelsea", 0⟩

/-- A normalized local candidate for the second fixture. -/
def pLiv : PEvent := ⟨2, "liverpool", "everton", 0⟩

/-- An eligible feed record matching `pArs` on day 0 with score 2-1. -/
def fxArs : ApiEvent :=
  ⟨some finishedStr, some 384, some 2, some 1,
    some (some arsenalRaw), some (some chelseaRaw), some 0⟩

/-- An eligible feed record matching `pLiv` on day 0 with score 3-0. -/
def fxLiv : ApiEvent :=
  ⟨some finishedStr, some 384, some 3, some 0,
    some (some liverpoolRaw), some (some evertonRaw), some 0⟩

/-- An eligible feed record whose start timestamp is absent: converting it at
line 102 raises. -/
def fxBad : ApiEvent :=
  ⟨some finishedStr, some 384, some 2, some 1, none, none, none⟩

/-- A feed record that is not finished. -/
def fxUnfinished : ApiEvent :=
  ⟨some ("inprogress"), some 384, some 2, some 1,
    some (some arsenalRaw), some (some chelseaRaw), some 0⟩

/-- The result row produced by matching `fxArs` to `pArs`. -/
def rowArs : ResultRow := ⟨1, some arsenalRaw, some chelseaRaw, 0, 2, 1⟩

/-- The result row produced by matching `fxLiv` to `pLiv`. -/
def rowLiv : ResultRow := ⟨2, some liverpoolRaw, some evertonRaw, 0, 3, 0⟩

/-- An empty, healthy store. -/
def storeEmpty : Store := ⟨[], [], []⟩

/-- An empty store in which inserts for event id 1 raise. -/
def storeFailing : Store := ⟨[], [1], []⟩

/-- A store that already holds the row for event id 1 (one earlier attempt). -/
def storeWithRow : Store := ⟨[rowArs], [], [1]⟩

/-- An environment whose database connects but whose candidate query raises,
and whose feed requests all fail. -/
def envQueryFail : Env := ⟨true, .error (), fun _ => .error ()⟩

/-- An environment whose database connection fails. -/
def envUnreachable : Env := ⟨false, .error (), fun _ => .ok ([])⟩

/-- An environment whose feed returns one malformed record on day 0 and an
empty batch afterwards. -/
def envCrash : Env :=
  ⟨true, .error (), fun d => if d = 0 then .ok ([fxBad]) else .ok ([])⟩


/-! Helper lemmas. -/

/-- The match condition as a proposition. -/
theorem matchPred_iff (ah aw : String) (d : Int) (p : PEvent) :
    matchPred ah aw d p = true ↔
      (ah = p.home_team ∧ aw = p.away_team ∧
        (d - p.starts_day).natAbs ≤ TOLERANCE_DAYS) := by
  simp [matchPred, Bool.and_eq_true, and_assoc]

/-- A successful linear search splits its list at the first hit. -/
theorem find_first_split {α : Type} (p : α → Bool) :
    ∀ (l : List α) (c : α), l.find? p = some c →
      p c = true ∧ ∃ pre post, l = pre ++ c :: post ∧ ∀ x ∈ pre, p x = false := by
  intro l
  induction l with
  | nil => intro c h; simp [List.find?] at h
  | cons a t ih =>
    intro c h
    by_cases hp : p a
    · rw [List.find?_cons_of_pos _ hp] at h
      cases h
      exact ⟨hp, [], t, rfl, by simp⟩
    · rw [List.find?_cons_of_neg _ hp] at h
      obtain ⟨hc, pre, post, heq, hpre⟩ := ih c h
      refine ⟨hc, a :: pre, post, by rw [heq]; rfl, ?_⟩
      intro x hx
      rcases List.mem_cons.mp hx with rfl | hx
      · simpa using hp
      · exact hpre x hx

/-! Claim theorems. -/

/-- C1: for every fixture (given through its normalized team names and start
day) and every candidate sequence, the matcher returns `none` exactly when no
candidate satisfies the three match conditions, and when it returns a
candidate, that candidate satisfies the conditions and every candidate
earlier in the sequence fails them. -/
theorem c1_find_match_first (ah aw : String) (d : Int) (cs : List PEvent) :
    (findMatch ah aw d cs = none ↔
      ∀ c ∈ cs, ¬(ah = c.home_team ∧ aw = c.away_team ∧
        (d - c.starts_day).natAbs ≤ TOLERANCE_DAYS)) ∧
    (∀ c, findMatch ah aw d cs = some c →
      (ah = c.home_team ∧ aw = c.away_team ∧
        (d - c.starts_day).natAbs ≤ TOLERANCE_DAYS) ∧
      ∃ pre post, cs = pre ++ c :: post ∧
        ∀ x ∈ pre, ¬(ah = x.home_team ∧ aw = x.away_team ∧
          (d - x.starts_day).natAbs ≤ TOLERANCE_DAYS)) := by
  constructor
  · rw [findMatch, List.find?_eq_none]
    constructor
    · intro h c hc hprop
      exact h c hc ((matchPred_iff ah aw d c).mpr hprop)
    · intro h c hc hb
      exact h c hc ((matchPred_iff ah aw d c).mp hb)
  · intro c h
    obtain ⟨hc, pre, post, heq, hpre⟩ := find_first_split (matchPred ah aw d) cs c h
    refine ⟨(matchPred_iff ah aw d c).mp hc, pre, post, heq, ?_⟩
    intro x hx hprop
    have := (matchPred_iff ah aw d x).mpr hprop
    rw [hpre x hx] at this
    exact Bool.false_ne_true this

/-- Witness for C1 at a concrete fixture and a one-candidate list. -/
theorem c1_find_match_first_wit :
    ("arsenal" = pArs.home_team ∧ "chelsea" = pArs.away_team ∧
      ((0 : Int) - pArs.starts_day).natAbs ≤ TOLERANCE_DAYS) ∧
    ∃ pre post, [pArs] = pre ++ pArs :: post ∧
      ∀ x ∈ pre, ¬("arsenal" = x.home_team ∧ "chelsea" = x.away_team ∧
        ((0 : Int) - x.starts_day).natAbs ≤ TOLERANCE_DAYS) :=
  (c1_find_match_first ("arsenal") ("chelsea") 0 [pArs]).2 pArs rfl

/-- C7: with equal normalized team names, a calendar-day distance of exactly
`TOLERANCE_DAYS` satisfies the match condition (and the candidate is
returned), while a distance of `TOLERANCE_DAYS + 1` fails it. -/
theorem c7_tolerance_boundary (ah aw : String) (d : Int) (c : PEvent)
    (cs : List PEvent) (hh : ah = c.home_team) (ha : aw = c.away_team) :
    ((d - c.starts_day).natAbs = TOLERANCE_DAYS →
      matchPred ah aw d c = true ∧ findMatch ah aw d (c :: cs) = some c) ∧
    ((d - c.starts_day).natAbs = TOLERANCE_DAYS + 1 →
      matchPred ah aw d c = false) := by
  constructor
  · intro h14
    have hp : matchPred ah aw d c = true :=
      (matchPred_iff ah aw d c).mpr ⟨hh, ha, le_of_eq h14⟩
    exact ⟨hp, by rw [findMatch, List.find?_cons_of_pos _ hp]⟩
  · intro h15
    cases hmp : matchPred ah aw d c with
    | false => rfl
    | true =>
      have := ((matchPred_iff ah aw d c).mp hmp).2.2
      omega

/-- Witness for C7 at distances 14 and 15 from a concrete candidate. -/
theorem c7_tolerance_boundary_wit :
    (matchPred ("arsenal") ("chelsea") 14 pArs = true ∧
      findMatch ("arsenal") ("chelsea") 14 [pArs] = some pArs) ∧
    matchPred ("arsenal") ("chelsea") 15 pArs = false :=
  ⟨(c7_tolerance_boundary ("arsenal") ("chelsea") 14 pArs [] rfl rfl).1 (by decide),
   (c7_tolerance_boundary ("arsenal") ("chelsea") 15 pArs [] rfl rfl).2 (by decide)⟩

/-- C5 (amended): both sides normalize a present name to the same trimmed,
lowercased string, and an absent name yields the empty string on both sides;
but a present-and-null feed-side name raises instead of normalizing. -/
theorem c5_normalization_both_sides :
    (∀ s : String, normApi (some (some s)) = .ok (normPinnacle (some s))) ∧
    normApi none = .ok (normPinnacle none) ∧
    normApi (some none) = .error () := by
  refine ⟨fun s => ?_, rfl, rfl⟩
  by_cases h : s = ""
  · subst h; rfl
  · simp [normApi, normPinnacle, h]

/-- C5 counterexample: a feed record whose team-name key is present but null
makes the feed-side normalization raise, where the claim requires it to
return the empty string without raising. -/
theorem c5_null_name_raises_counterexample : normApi (some none) = .error () := rfl

/-- C6: eligibility holds exactly when the status is finished, the
stringified tournament id equals the stringified configured id, and both
scores are present; a record missing its status, tournament id, or either
score is ineligible; and an ineligible record is skipped (counted, no store
change) without raising. -/
theorem c6_eligibility_total (cfg : Config) (e : ApiEvent) :
    (is_eligible cfg e = true ↔
      (e.status_type = some finishedStr ∧
        pyStr e.tournament_id = toString cfg.tournament_id ∧
        e.homeScore ≠ none ∧ e.awayScore ≠ none)) ∧
    (e.status_type = none → is_eligible cfg e = false) ∧
    (e.tournament_id = none → toString cfg.tournament_id ≠ pyStr none →
      is_eligible cfg e = false) ∧
    (e.homeScore = none ∨ e.awayScore = none → is_eligible cfg e = false) ∧
    (∀ pins st c s, is_eligible cfg e = false →
      processEvent cfg pins e st c s = .ok (st, c, s + 1)) := by
  have hiff : is_eligible cfg e = true ↔
      (e.status_type = some finishedStr ∧
        pyStr e.tournament_id = toString cfg.tournament_id ∧
        e.homeScore ≠ none ∧ e.awayScore ≠ none) := by
    simp [is_eligible, Bool.and_eq_true, and_assoc, Option.isSome_iff_ne_none]
  refine ⟨hiff, ?_, ?_, ?_, ?_⟩
  · intro h
    cases hb : is_eligible cfg e with
    | false => rfl
    | true => exact absurd (hiff.mp hb).1 (by simp [h])
  · intro h hne
    cases hb : is_eligible cfg e with
    | false => rfl
    | true => exact absurd ((hiff.mp hb).2.1.symm.trans (by rw [h])) hne
  · intro h
    cases hb : is_eligible cfg e with
    | false => rfl
    | true =>
      rcases h with h | h
      · exact absurd h (hiff.mp hb).2.2.1
      · exact absurd h (hiff.mp hb).2.2.2
  · intro pins st c s hfe
    by_cases h1 : e.status_type = some finishedStr
    · by_cases h2 : pyStr e.tournament_id = toString cfg.tournament_id
      · cases h3 : e.homeScore with
        | none => simp [processEvent, h1, h2, h3]
        | some hs =>
          cases h4 : e.awayScore with
          | none => simp [processEvent, h1, h2, h3, h4]
          | some aws =>
            exfalso
            have : is_eligible cfg e = true := by
              simp [is_eligible, h1, h2, h3, h4]
            rw [this] at hfe
            simp at hfe
      · simp [processEvent, h1, h2]
    · simp [processEvent, h1]

/-- Witness for C6: an unfinished concrete record is ineligible and is
skipped by the loop body without raising. -/
theorem c6_eligibility_total_wit :
    processEvent cfgMain [] fxUnfinished storeEmpty 0 0 = .ok (storeEmpty, 0, 1) :=
  (c6_eligibility_total cfgMain fxUnfinished).2.2.2.2 [] storeEmpty 0 0 (by decide)

/-- One insert attempt appends exactly one entry to the attempts log, and
either leaves the rows unchanged or appends a row whose key was absent. -/
theorem insertAttempt_spec (st : Store) (r : ResultRow) :
    ((insertAttempt st r).1.attempts = st.attempts ++ [r.event_id]) ∧
    ((insertAttempt st r).1.rows = st.rows ∨
      ((insertAttempt st r).1.rows = st.rows ++ [r] ∧
        r.event_id ∉ st.rows.map ResultRow.event_id)) := by
  unfold insertAttempt
  split
  · exact ⟨rfl, Or.inl rfl⟩
  · split
    case isTrue => exact ⟨rfl, Or.inl rfl⟩
    case isFalse hany =>
      refine ⟨rfl, Or.inr ⟨rfl, ?_⟩⟩
      simp only [List.any_eq_true, beq_iff_eq, not_exists, not_and] at hany
      simp only [List.mem_map, not_exists, not_and]
      intro q hq
      exact hany q hq

/-- Bound form of `insertAttempt_spec` for a named result pair. -/
theorem insertAttempt_bound (st : Store) (r : ResultRow) (st2 : Store) (b : Bool)
    (h : insertAttempt st r = (st2, b)) :
    st2.attempts.length = st.attempts.length + 1 ∧
    ((st.rows.map ResultRow.event_id).Nodup →
      (st2.rows.map ResultRow.event_id).Nodup) := by
  have h1 : (insertAttempt st r).1 = st2 := by rw [h]
  obtain ⟨ha, hr⟩ := insertAttempt_spec st r
  rw [h1] at ha hr
  refine ⟨by rw [ha]; simp, fun hnd => ?_⟩
  rcases hr with hsame | ⟨happ, hfresh⟩
  · rw [hsame]; exact hnd
  · rw [happ, List.map_append]
    simp only [List.nodup_append, List.map_cons, List.map_nil]
    exact ⟨hnd, List.nodup_singleton _, by
      intro a hmem hmem2
      simp only [List.mem_singleton] at hmem2
      exact hfresh (hmem2 ▸ hmem)⟩

/-- Processing one feed record attempts at most one insert and preserves
key-uniqueness of the stored rows. -/
theorem processEvent_ok_bound (cfg : Config) (pins : List PEvent) (e : ApiEvent)
    (st : Store) (c s : Nat) (st2 : Store) (c2 s2 : Nat)
    (h : processEvent cfg pins e st c s = .ok (st2, c2, s2)) :
    st2.attempts.length ≤ st.attempts.length + 1 ∧
    ((st.rows.map ResultRow.event_id).Nodup →
      (st2.rows.map ResultRow.event_id).Nodup) := by
  by_cases h1 : e.status_type = some finishedStr
  · by_cases h2 : pyStr e.tournament_id = toString cfg.tournament_id
    · cases h3 : e.homeScore with
      | none =>
        simp only [processEvent, h1, h2, h3, if_pos, Except.ok.injEq,
          Prod.mk.injEq] at h
        obtain ⟨rfl, rfl, rfl⟩ := h
        exact ⟨Nat.le_succ _, id⟩
      | some hs =>
        cases h4 : e.awayScore with
        | none =>
          simp only [processEvent, h1, h2, h3, h4, if_pos, Except.ok.injEq,
            Prod.mk.injEq] at h
          obtain ⟨rfl, rfl, rfl⟩ := h
          exact ⟨Nat.le_succ _, id⟩
        | some aws =>
          cases h5 : normApi e.homeTeam_name with
          | error u => simp [processEvent, h1, h2, h3, h4, h5] at h
          | ok ah =>
            cases h6 : normApi e.awayTeam_name with
            | error u => simp [processEvent, h1, h2, h3, h4, h5, h6] at h
            | ok aw =>
              cases h7 : e.startTimestamp with
              | none => simp [processEvent, h1, h2, h3, h4, h5, h6, h7] at h
              | some t =>
                cases h8 : findMatch ah aw (dayOf t) pins with
                | none =>
                  simp only [processEvent, h1, h2, h3, h4, h5, h6, h7, h8,
                    if_pos, Except.ok.injEq, Prod.mk.injEq] at h
                  obtain ⟨rfl, rfl, rfl⟩ := h
                  exact ⟨Nat.le_succ _, id⟩
                | some p =>
                  cases h9 : insertAttempt st (mkRow p e (dayOf t) hs aws) with
                  | mk st3 b =>
                    obtain ⟨hlen, hnd⟩ := insertAttempt_bound st _ st3 b h9
                    cases b with
                    | true =>
                      simp only [processEvent, h1, h2, h3, h4, h5, h6, h7, h8,
                        h9, if_pos, Except.ok.injEq, Prod.mk.injEq] at h
                      obtain ⟨rfl, rfl, rfl⟩ := h
                      exact ⟨by omega, hnd⟩
                    | false =>
                      simp only [processEvent, h1, h2, h3, h4, h5, h6, h7, h8,
                        h9, if_pos, Except.ok.injEq, Prod.mk.injEq] at h
                      obtain ⟨rfl, rfl, rfl⟩ := h
                      exact ⟨by omega, hnd⟩
    · simp only [processEvent, h1, h2, if_pos, if_neg, Except.ok.injEq,
        Prod.mk.injEq, if_false] at h
      obtain ⟨rfl, rfl, rfl⟩ := h
      exact ⟨Nat.le_succ _, id⟩
  · simp only [processEvent, h1, if_neg, Except.ok.injEq, Prod.mk.injEq,
      if_false] at h
    obtain ⟨rfl, rfl, rfl⟩ := h
    exact ⟨Nat.le_succ _, id⟩

/-- The batch loop attempts at most one insert per feed record and preserves
key-uniqueness of the stored rows. -/
theorem insertLoop_bound (cfg : Config) (pins : List PEvent) :
    ∀ (apis : List ApiEvent) (st : Store) (c s : Nat) (st2 : Store) (c2 s2 : Nat),
      insertLoop cfg pins apis st c s = .ok (st2, c2, s2) →
      st2.attempts.length ≤ st.attempts.length + apis.length ∧
      ((st.rows.map ResultRow.event_id).Nodup →
        (st2.rows.map ResultRow.event_id).Nodup) := by
  intro apis
  induction apis with
  | nil =>
    intro st c s st2 c2 s2 h
    simp only [insertLoop, Except.ok.injEq, Prod.mk.injEq] at h
    obtain ⟨rfl, rfl, rfl⟩ := h
    exact ⟨by simp, id⟩
  | cons e rest ih =>
    intro st c s st2 c2 s2 h
    rw [insertLoop] at h
    cases hp : processEvent cfg pins e st c s with
    | error u => rw [hp] at h; exact absurd h (by simp)
    | ok x =>
      obtain ⟨stM, cM, sM⟩ := x
      rw [hp] at h
      obtain ⟨hb1, hb2⟩ := processEvent_ok_bound cfg pins e st c s stM cM sM hp
      obtain ⟨hl1, hl2⟩ := ih stM cM sM st2 c2 s2 h
      refine ⟨by simp only [List.length_cons]; omega, fun hnd => hl2 (hb2 hnd)⟩

/-- C2 (amended): over any batch, the loop makes at most one insert attempt
per feed record (the matcher stops at the first satisfying candidate), and
key-uniqueness of the stored rows is preserved, so at most one row is ever
stored per local event id; but nothing prevents the SAME local event id from
being attempted for several feed records. -/
theorem c2_at_most_one_attempt_per_fixture (cfg : Config) (pins : List PEvent)
    (apis : List ApiEvent) (st : Store) (st2 : Store) (c2 s2 : Nat)
    (h : match_and_insert_results cfg pins apis st = .ok (st2, c2, s2)) :
    st2.attempts.length ≤ st.attempts.length + apis.length ∧
    ((st.rows.map ResultRow.event_id).Nodup →
      (st2.rows.map ResultRow.event_id).Nodup) :=
  insertLoop_bound cfg pins apis st 0 0 st2 c2 s2 h

/-- Witness for C2 on a concrete one-record batch. -/
theorem c2_at_most_one_attempt_per_fixture_wit :
    (⟨[rowArs], [], [1]⟩ : Store).attempts.length ≤
      storeEmpty.attempts.length + [fxArs].length ∧
    ((storeEmpty.rows.map ResultRow.event_id).Nodup →
      ((⟨[rowArs], [], [1]⟩ : Store).rows.map ResultRow.event_id).Nodup) :=
  c2_at_most_one_attempt_per_fixture cfgMain [pArs] [fxArs] storeEmpty
    ⟨[rowArs], [], [1]⟩ 1 0 rfl

/-- C2 counterexample: two eligible feed records that both match the one
local candidate produce two insert attempts carrying the same local event
id 1, where the claim allows at most one. -/
theorem c2_event_id_reused_counterexample :
    match_and_insert_results cfgMain [pArs] [fxArs, fxArs] storeEmpty =
      .ok (⟨[rowArs], [], [1, 1]⟩, 2, 0) ∧
    ¬ ([1, 1] : List Nat).Nodup := ⟨rfl, by decide⟩

/-- C3 (amended): re-executing the insert for an already-stored key is a
successful no-op: the rows are unchanged (the stored row stays unique) and
the statement reports success, which the loop then counts — the reported
count includes duplicate no-ops. -/
theorem c3_duplicate_insert_is_noop (st : Store) (r : ResultRow)
    (h1 : r.event_id ∉ st.failing)
    (h2 : r.event_id ∈ st.rows.map ResultRow.event_id) :
    insertAttempt st r =
      ({ st with attempts := st.attempts ++ [r.event_id] }, true) := by
  have hany : st.rows.any (fun q => q.event_id == r.event_id) = true := by
    simp only [List.mem_map] at h2
    obtain ⟨q, hq, hqe⟩ := h2
    simp only [List.any_eq_true, beq_iff_eq]
    exact ⟨q, hq, hqe⟩
  unfold insertAttempt
  rw [if_neg h1, if_pos hany]

/-- Witness for C3 on a store already holding the row for event id 1. -/
theorem c3_duplicate_insert_is_noop_wit :
    insertAttempt storeWithRow rowArs =
      ({ storeWithRow with
          attempts := storeWithRow.attempts ++ [rowArs.event_id] }, true) :=
  c3_duplicate_insert_is_noop storeWithRow rowArs (by decide) (by decide)

/-- C3 counterexample: re-running the batch for the already-persisted match
leaves exactly the one stored row, but the reported inserted count is 1, not
the 0 the claim requires for a duplicate no-op. -/
theorem c3_second_persist_counted_counterexample :
    match_and_insert_results cfgMain [pArs] [fxArs] storeWithRow =
      .ok (⟨[rowArs], [], [1, 1]⟩, 1, 0) := rfl

/-- C8 (amended): when the insert for a matched record raises, the exception
is caught: the loop body returns normally (the batch proceeds to the next
record) with the store rows unchanged, but BOTH counters unchanged — the
failed record is counted neither as inserted nor as skipped. -/
theorem c8_insert_failure_continues (cfg : Config) (pins : List PEvent)
    (e : ApiEvent) (st : Store) (c s : Nat) (hs aws t : Int) (ah aw : String)
    (p : PEvent)
    (h1 : e.status_type = some finishedStr)
    (h2 : pyStr e.tournament_id = toString cfg.tournament_id)
    (h3 : e.homeScore = some hs) (h4 : e.awayScore = some aws)
    (h5 : normApi e.homeTeam_name = .ok ah)
    (h6 : normApi e.awayTeam_name = .ok aw)
    (h7 : e.startTimestamp = some t)
    (h8 : findMatch ah aw (dayOf t) pins = some p)
    (h9 : p.event_id ∈ st.failing) :
    processEvent cfg pins e st c s =
      .ok ({ st with attempts := st.attempts ++ [p.event_id] }, c, s) := by
  have hins : insertAttempt st (mkRow p e (dayOf t) hs aws) =
      ({ st with attempts := st.attempts ++ [p.event_id] }, false) := by
    unfold insertAttempt mkRow
    simp only [if_pos h9]
  simp only [processEvent, h1, h2, h3, h4, h5, h6, h7, h8, hins, if_pos]

/-- Witness for C8 on a concrete matched record whose insert raises. -/
theorem c8_insert_failure_continues_wit :
    processEvent cfgMain [pArs] fxArs storeFailing 0 0 =
      .ok ({ storeFailing with
          attempts := storeFailing.attempts ++ [pArs.event_id] }, 0, 0) :=
  c8_insert_failure_continues cfgMain [pArs] fxArs storeFailing 0 0 2 1 0
    ("arsenal") ("chelsea") pArs rfl rfl rfl rfl rfl rfl rfl rfl (by decide)

/-- C8 counterexample: in a two-record batch the first insert raises; the
batch proceeds and inserts the second record, yet the reported counts are
1 inserted and 0 skipped — the failed record is NOT counted as skipped,
where the claim requires a skipped count of 1. -/
theorem c8_failure_not_skipped_counterexample :
    match_and_insert_results cfgMain [pArs, pLiv] [fxArs, fxLiv] storeFailing =
      .ok (⟨[rowLiv], [1], [1, 2]⟩, 1, 0) := rfl

/-- C4 (amended): a connection failure at startup aborts the run with exit
code 1; but a failure of the candidate READ is caught inside the reader,
which returns the empty candidate list, and the run proceeds rather than
aborting.  In this source the read always fails: the query body references
the unbound name `timezone`, so every actual run works from an empty
candidate list. -/
theorem c4_connect_fatal_query_caught (cfg : Config) (env : Env) (st : Store) :
    (env.db_reachable = false → update cfg env st = .exited 1) ∧
    fetch_pinnacle_events_actual = [] ∧
    (env.db_reachable = true → env.query_result = .error () →
      update cfg env st ≠ .exited 1 ∧
      fetch_pinnacle_events env.query_result = []) := by
  refine ⟨fun h => by simp [update, h], rfl, fun h1 h2 => ⟨?_, by rw [h2]; rfl⟩⟩
  simp only [update, h1, if_pos]
  cases hl : updateLoop cfg env (fetch_pinnacle_events env.query_result)
      (dateRange cfg.start_date cfg.end_date) st with
  | error u => simp
  | ok st2 => simp

/-- Witness for C4: an unreachable database exits with code 1; a failing
candidate query does not abort the run and yields no candidates. -/
theorem c4_connect_fatal_query_caught_wit :
    update cfgMain envUnreachable storeEmpty = .exited 1 ∧
    (update cfgMain envQueryFail storeEmpty ≠ .exited 1 ∧
      fetch_pinnacle_events envQueryFail.query_result = []) :=
  ⟨(c4_connect_fatal_query_caught cfgMain envUnreachable storeEmpty).1 rfl,
   (c4_connect_fatal_query_caught cfgMain envQueryFail storeEmpty).2.2 rfl rfl⟩

/-- C4 counterexample: the candidate read fails (its query raises), yet the
run COMPLETES over both periods with the empty candidate set, where the
claim requires the run to abort. -/
theorem c4_query_failure_not_fatal_counterexample :
    update cfgTwoDays envQueryFail storeEmpty = .completed storeEmpty := rfl

/-- When every feed request fails, every period yields the empty batch and
the loop passes the store through unchanged. -/
theorem updateLoop_feed_error (cfg : Config) (env : Env) (pins : List PEvent)
    (h : ∀ d, env.feed d = .error ()) :
    ∀ (ds : List Int) (st : Store), updateLoop cfg env pins ds st = .ok st := by
  intro ds
  induction ds with
  | nil => intro st; rfl
  | cons d rest ih =>
    intro st
    rw [updateLoop, h d]
    exact ih st

/-- C9 (amended): a FEED REQUEST failure is recoverable per period — it is
caught inside the feed client, the period contributes an empty batch, and
the run advances through every period to completion.  (Malformed fixture
data inside a batch is NOT recoverable: see the counterexample.) -/
theorem c9_feed_failure_isolated (cfg : Config) (env : Env) (st : Store)
    (h1 : env.db_reachable = true) (h2 : ∀ d, env.feed d = .error ()) :
    update cfg env st = .completed st := by
  simp [update, h1, updateLoop_feed_error cfg env _ h2]

/-- Witness for C9: with every feed request failing, a concrete run still
completes. -/
theorem c9_feed_failure_isolated_wit :
    update cfgMain envQueryFail storeEmpty = .completed storeEmpty :=
  c9_feed_failure_isolated cfgMain envQueryFail storeEmpty rfl (fun _ => rfl)

/-- C9 counterexample: the day-0 batch holds an eligible record whose start
timestamp is absent; converting it raises, nothing in `update` catches the
exception, and the two-day run crashes without reaching the final period,
where the claim requires the failure to be confined to that period. -/
theorem c9_malformed_data_crashes_counterexample :
    update cfgTwoDays envCrash storeEmpty = .crashed := rfl

/-- Membership in the day sequence is exactly the integer interval. -/
theorem dateRangeAux_mem (n : Nat) :
    ∀ (s d : Int), d ∈ dateRangeAux n s ↔ s ≤ d ∧ d < s + n := by
  induction n with
  | zero => intro s d; simp [dateRangeAux]
  | succ m ih =>
    intro s d
    simp only [dateRangeAux, List.mem_cons, ih (s + 1)]
    omega

/-- Each day in the interval occurs exactly once in the day sequence. -/
theorem dateRangeAux_count (n : Nat) :
    ∀ (s d : Int),
      (dateRangeAux n s).count d = if s ≤ d ∧ d < s + n then 1 else 0 := by
  induction n with
  | zero =>
    intro s d
    simp only [dateRangeAux, List.count_nil]
    split
    · omega
    · rfl
  | succ m ih =>
    intro s d
    simp only [dateRangeAux, List.count_cons, ih (s + 1), beq_iff_eq]
    split_ifs <;> omega

/-- The day sequence is strictly increasing. -/
theorem dateRangeAux_pairwise (n : Nat) :
    ∀ s : Int, (dateRangeAux n s).Pairwise (· < ·) := by
  induction n with
  | zero => intro s; simp [dateRangeAux]
  | succ m ih =>
    intro s
    simp only [dateRangeAux, List.pairwise_cons]
    refine ⟨fun x hx => ?_, ih (s + 1)⟩
    have := (dateRangeAux_mem m (s + 1) x).mp hx
    omega

/-- C10: the date loop terminates and visits each calendar day between the
start and end dates inclusive exactly once, in strictly ascending order, and
visits no day at all when the start date is after the end date. -/
theorem c10_date_loop_visits (s e : Int) :
    (∀ d : Int, (dateRange s e).count d = if s ≤ d ∧ d ≤ e then 1 else 0) ∧
    (dateRange s e).Pairwise (· < ·) ∧
    (e < s → dateRange s e = []) := by
  refine ⟨fun d => ?_, dateRangeAux_pairwise _ s, fun h => ?_⟩
  · rw [dateRange, dateRangeAux_count]
    split_ifs <;> omega
  · rw [dateRange]
    have h0 : (e + 1 - s).toNat = 0 := by omega
    rw [h0]
    rfl

/-- Witness for C10 on the concrete ranges 0..2 and 2..1. -/
theorem c10_date_loop_visits_wit :
    ((dateRange 0 2).count 1 = if (0 : Int) ≤ 1 ∧ (1 : Int) ≤ 2 then 1 else 0) ∧
    dateRange 2 1 = [] :=
  ⟨(c10_date_loop_visits 0 2).1 1, (c10_date_loop_visits 2 1).2.2 (by decide)⟩
